import Mathlib

/-!
Verification of `update_traefik_and_cloudflare_authelia.py`.

The script is a linear CLI utility: it checks three environment values,
checks the argument count, loads a Traefik routing document (YAML), writes a
backup, prompts for a service name / IP / scheme, merges a router entry and a
service entry into the document (sorted by key), writes the document back,
issues one Cloudflare DNS POST, and updates an Authelia access-control
document (backup, then append the new subdomain to the first `one_factor`
rule, or append a fresh rule).

We embed the script as a pure function from all of its inputs (environment,
argv, file contents, interactive answers, DNS response) to the list of
observable effects it performs, and prove the spec's claims about it.
-/

namespace TraefikUpdate

/-- A YAML value, as produced by `yaml.safe_load`: scalars, sequences and
mappings (mappings keep insertion order, like Python dicts). -/
inductive Yaml where
  | s : String → Yaml
  | b : Bool → Yaml
  | i : Int → Yaml
  | arr : List Yaml → Yaml
  | map : List (String × Yaml) → Yaml
deriving Repr

/-- Look a key up in an association list (first binding wins, as in a
Python dict, whose keys are unique anyway). -/
def lookupKey (k : String) : List (String × Yaml) → Option Yaml
  | [] => none
  | (a, v) :: t => if a = k then some v else lookupKey k t

/-- Field access on a YAML mapping (`y[k]` in Python), `none` when `y` is not
a mapping or lacks the key. -/
def mapLookup (y : Yaml) (k : String) : Option Yaml :=
  match y with
  | Yaml.map ps => lookupKey k ps
  | _ => none

/-- `d[k] = v` for a Python dict kept as an insertion-ordered association
list: an existing key keeps its position and gets the new value, a new key is
appended at the end. -/
def setKey (d : List (String × Yaml)) (k : String) (v : Yaml) :
    List (String × Yaml) :=
  if d.any (fun p => p.1 = k) then
    d.map (fun p => if p.1 = k then (k, v) else p)
  else
    d ++ [(k, v)]

/-- Python `d.update(e)`: set every binding of `e` in `d`, left to right. -/
def dictUpdate (d e : List (String × Yaml)) : List (String × Yaml) :=
  e.foldl (fun acc p => setKey acc p.1 p.2) d

/-- Python's `str` comparison: lexicographic on the code points, here as a
computable comparison of the character lists. -/
def goLe : List Char → List Char → Bool
  | [], _ => true
  | _ :: _, [] => false
  | a :: as, b :: bs => if a < b then true else if b < a then false else goLe as bs

/-- `a <= b` on Python strings. -/
def strLe (a b : String) : Prop := goLe a.data b.data = true

instance : DecidableRel strLe :=
  fun a b => inferInstanceAs (Decidable (goLe a.data b.data = true))

/-- The key ordering used by `dict(sorted(d.items()))`: Python compares the
`(key, value)` tuples, but the keys of a dict are distinct, so the comparison
is decided by the key alone. -/
def keyLe (p q : String × Yaml) : Prop := strLe p.1 q.1

instance : DecidableRel keyLe := fun p q => inferInstanceAs (Decidable (strLe p.1 q.1))

/-- `dict(sorted(d.items()))`: the mapping rewritten in ascending key order. -/
def sortByKey (d : List (String × Yaml)) : List (String × Yaml) :=
  List.insertionSort keyLe d

/-- The routing document: `config['http']['routers']` and
`config['http']['services']`, each an insertion-ordered mapping. -/
structure TraefikConfig where
  routers : List (String × Yaml)
  services : List (String × Yaml)
deriving Repr

/-- The value of the new router entry (source lines 80–88): fixed
`entryPoints`, `middlewares` and empty `tls`, a `Host` rule on
`<service>.<domain>`, and a reference to service `<service>-svc`. -/
def routerVal (serviceName domainName : String) : Yaml :=
  Yaml.map
    [("entryPoints", Yaml.arr [Yaml.s "https"]),
     ("rule", Yaml.s ("Host(`" ++ serviceName ++ "." ++ domainName ++ "`)")),
     ("middlewares", Yaml.arr [Yaml.s "chain-no-auth"]),
     ("tls", Yaml.map []),
     ("service", Yaml.s (serviceName ++ "-svc"))]

/-- `router_entry`, the one-key mapping `{service_name: routerVal}`. -/
def routerEntry (serviceName domainName : String) : List (String × Yaml) :=
  [(serviceName, routerVal serviceName domainName)]

/-- The value of the new service entry (source lines 91–98): a load balancer
with one backend URL `<scheme>://<ip>/` and `passHostHeader: true`. -/
def serviceVal (scheme ipAddress : String) : Yaml :=
  Yaml.map
    [("loadBalancer", Yaml.map
       [("servers", Yaml.arr [Yaml.map [("url", Yaml.s (scheme ++ "://" ++ ipAddress ++ "/"))]]),
        ("passHostHeader", Yaml.b true)])]

/-- `service_entry`, the one-key mapping `{service_name-svc: serviceVal}`. -/
def serviceEntry (serviceName scheme ipAddress : String) : List (String × Yaml) :=
  [(serviceName ++ "-svc", serviceVal scheme ipAddress)]

/-- Source lines 100–108: update each mapping with the new entry and rewrite
it sorted by key. -/
def applyTraefik (cfg : TraefikConfig) (serviceName domainName scheme ipAddress : String) :
    TraefikConfig :=
  { routers := sortByKey (dictUpdate cfg.routers (routerEntry serviceName domainName)),
    services := sortByKey (dictUpdate cfg.services (serviceEntry serviceName scheme ipAddress)) }

/-- An Authelia access-control rule: the two fields the script touches
(`domain`, a list of strings, and `policy`), plus whatever other fields the
rule carries, which the script leaves alone. -/
structure AccessRule where
  domain : List String
  policy : String
  rest : List (String × Yaml)
deriving Repr

/-- Source lines 137–145 (`update_authelia_config` body): append the new
subdomain to the first rule whose policy is `one_factor`; when no rule
matches, the `for`/`else` appends `{domain: [new_subdomain], policy:
one_factor}` at the end. -/
def updateRules (rules : List AccessRule) (newSubdomain : String) : List AccessRule :=
  match rules with
  | [] => [⟨[newSubdomain], "one_factor", []⟩]
  | r :: rs =>
    if r.policy = "one_factor" then
      { r with domain := r.domain ++ [newSubdomain] } :: rs
    else
      r :: updateRules rs newSubdomain

/-- Total number of occurrences of a subdomain across the domain lists of a
rule list (used to observe the duplicate entries the second run appends). -/
def domainCount (rules : List AccessRule) (sub : String) : Nat :=
  (rules.map (fun r => r.domain.count sub)).sum

/-- A concrete two-factor rule, used to evaluate the update on examples. -/
def ruleTwoFactor : AccessRule := ⟨["a.example.com"], "two_factor", []⟩

/-- A concrete one-factor rule, used to evaluate the update on examples. -/
def ruleOneFactor : AccessRule := ⟨["b.example.com"], "one_factor", []⟩

/-- A concrete bypass rule, used to evaluate the update on examples. -/
def ruleBypass : AccessRule := ⟨["c.example.com"], "bypass", []⟩


/-- Source line 72: `input(...).strip().lower()`, embedded at character
level: drop surrounding whitespace, then lowercase every character. -/
def normalizeScheme (raw : String) : String :=
  ⟨((raw.data.dropWhile Char.isWhitespace).reverse.dropWhile
      Char.isWhitespace).reverse.map Char.toLower⟩

/-- Source lines 38–43: the message printed for a Cloudflare response.
200/201 is success, 409 is "already exists" (not an error), anything else is
a failure logged with the status code and the response body. -/
def cloudflareMessage (status : Nat) (text cnameName cnameTarget : String) : String :=
  if status = 200 ∨ status = 201 then
    "Successfully added CNAME record: " ++ cnameName ++ " -> " ++ cnameTarget
  else if status = 409 then
    "CNAME record already exists: " ++ cnameName ++ " -> " ++ cnameTarget
  else
    "Failed to add CNAME record: " ++ toString status ++ " - " ++ text

/-- Python truthiness of `os.getenv(...)`: `not x` holds when the variable is
absent or the empty string. -/
def envMissing : Option String → Bool
  | none => true
  | some v => v = ""

/-- The three environment values the script reads. -/
structure EnvVars where
  token : Option String
  zoneId : Option String
  domainName : Option String

/-- A concrete, fully populated environment, used to evaluate runs. -/
def envW : EnvVars := ⟨some "tok", some "zone", some "example.com"⟩

/-- A concrete two-element `sys.argv`, used to evaluate runs. -/
def argvW : List String := ["update.py", "config.yml"]

/-- A concrete routing document, used to evaluate runs. -/
def cfgW : TraefikConfig := ⟨[("zeta", Yaml.map [])], [("zeta-svc", Yaml.map [])]⟩

/-- Tokens of the serialized form of a YAML document.

Modelled from the spec: the `yaml` library (`yaml.dump` / `yaml.safe_load`)
is not part of the repository's source; the spec describes the backup as a
verbatim snapshot that, when parsed, equals the original document. We model
the library's serialized text at token level: one token per scalar, bracket
tokens for sequences and mappings, and a key token per mapping entry. -/
inductive Tok where
  | scalarS : String → Tok
  | scalarB : Bool → Tok
  | scalarI : Int → Tok
  | arrOpen : Tok
  | arrClose : Tok
  | mapOpen : Tok
  | mapClose : Tok
  | key : String → Tok
deriving Repr, DecidableEq

mutual

/-- Modelled from the spec: `yaml.dump`, at token level. -/
def dumpYaml : Yaml → List Tok
  | Yaml.s v => [Tok.scalarS v]
  | Yaml.b v => [Tok.scalarB v]
  | Yaml.i v => [Tok.scalarI v]
  | Yaml.arr vs => Tok.arrOpen :: dumpItems vs
  | Yaml.map ps => Tok.mapOpen :: dumpPairs ps

/-- Serialize the items of a sequence, closed by `arrClose`. -/
def dumpItems : List Yaml → List Tok
  | [] => [Tok.arrClose]
  | v :: vs => dumpYaml v ++ dumpItems vs

/-- Serialize the entries of a mapping, closed by `mapClose`. -/
def dumpPairs : List (String × Yaml) → List Tok
  | [] => [Tok.mapClose]
  | (k, v) :: ps => Tok.key k :: (dumpYaml v ++ dumpPairs ps)

end

mutual

/-- A size measure of a YAML value, used as parser fuel. -/
def sizeY : Yaml → Nat
  | Yaml.s _ => 1
  | Yaml.b _ => 1
  | Yaml.i _ => 1
  | Yaml.arr vs => 1 + sizeItems vs
  | Yaml.map ps => 1 + sizePairs ps

/-- Size of a sequence body. -/
def sizeItems : List Yaml → Nat
  | [] => 1
  | v :: vs => 1 + sizeY v + sizeItems vs

/-- Size of a mapping body. -/
def sizePairs : List (String × Yaml) → Nat
  | [] => 1
  | (_, v) :: ps => 1 + sizeY v + sizePairs ps

end

mutual

/-- Modelled from the spec: `yaml.safe_load`, at token level. Parses one
value off the front of the token list; the fuel bounds recursion depth. -/
def pVal : Nat → List Tok → Option (Yaml × List Tok)
  | 0, _ => none
  | _ + 1, Tok.scalarS v :: r => some (Yaml.s v, r)
  | _ + 1, Tok.scalarB v :: r => some (Yaml.b v, r)
  | _ + 1, Tok.scalarI v :: r => some (Yaml.i v, r)
  | n + 1, Tok.arrOpen :: r =>
    match pItems n r with
    | some (vs, r2) => some (Yaml.arr vs, r2)
    | none => none
  | n + 1, Tok.mapOpen :: r =>
    match pPairs n r with
    | some (ps, r2) => some (Yaml.map ps, r2)
    | none => none
  | _ + 1, Tok.arrClose :: _ => none
  | _ + 1, Tok.mapClose :: _ => none
  | _ + 1, Tok.key _ :: _ => none
  | _ + 1, [] => none

/-- Parse sequence items up to the closing `arrClose`. -/
def pItems : Nat → List Tok → Option (List Yaml × List Tok)
  | 0, _ => none
  | n + 1, ts =>
    if ts.head? = some Tok.arrClose then some ([], ts.tail)
    else
      match pVal n ts with
      | some (v, r) =>
        match pItems n r with
        | some (vs, r2) => some (v :: vs, r2)
        | none => none
      | none => none

/-- Parse mapping entries up to the closing `mapClose`. -/
def pPairs : Nat → List Tok → Option (List (String × Yaml) × List Tok)
  | 0, _ => none
  | n + 1, ts =>
    if ts.head? = some Tok.mapClose then some ([], ts.tail)
    else
      match ts with
      | Tok.key k :: ts2 =>
        match pVal n ts2 with
        | some (v, r) =>
          match pPairs n r with
          | some (ps, r2) => some ((k, v) :: ps, r2)
          | none => none
        | none => none
      | _ => none

end

/-- The routing document as the YAML value the script holds in `config`. -/
def configToYaml (cfg : TraefikConfig) : Yaml :=
  Yaml.map [("http", Yaml.map [("routers", Yaml.map cfg.routers),
                               ("services", Yaml.map cfg.services)])]

/-- The Authelia document as the YAML value the script holds. -/
def rulesToYaml (rules : List AccessRule) : Yaml :=
  Yaml.map [("access_control", Yaml.map
    [("rules", Yaml.arr (rules.map fun r =>
       Yaml.map (("domain", Yaml.arr (r.domain.map Yaml.s)) ::
                 ("policy", Yaml.s r.policy) :: r.rest)))])]

/-- An observable effect of a run of the script, in program order. Backup
file names carry a wall-clock timestamp, which we do not model; the backup
effects carry the serialized content instead. -/
inductive Effect where
  | printMsg : String → Effect
  | writeBackup : List Tok → Effect
  | writeConfig : TraefikConfig → Effect
  | dnsPost : String → String → Effect
  | writeAutheliaBackup : List Tok → Effect
  | writeAuthelia : List AccessRule → Effect
  | exitProc : Nat → Effect

/-- Source line 17. -/
def envMsg : String :=
  "Please ensure CLOUDFLARE_API_TOKEN, CLOUDFLARE_ZONE_ID, and DOMAIN_NAME are set in the .env file."

/-- Source line 47. -/
def usageMsg : String :=
  "Usage: python update_traefik_and_cloudflare.py <path_to_config_file>"

/-- Source line 76. -/
def invalidSchemeMsg : String :=
  "Invalid scheme. Please enter 'http' or 'https'."

/-- The whole script as a function from its inputs to its effect trace.

Inputs: the three environment values; `argv`, the full `sys.argv` (so one
positional argument means length 2); the routing document loaded from the
config file; the three interactive answers; the DNS response status and
body; and the Authelia rule list loaded from the fixed path. The trace
follows the source order: env check (line 16), argv check (line 46), backup
of the routing document (lines 57–67), scheme validation (line 75), merge
and write of the routing document (lines 100–114), the Cloudflare call
(line 117), then the Authelia backup, update and write (lines 122–152). -/
def runProgram (env : EnvVars) (argv : List String) (config : TraefikConfig)
    (serviceName ipAddress schemeRaw : String) (dnsStatus : Nat) (dnsText : String)
    (autheliaRules : List AccessRule) : List Effect :=
  if envMissing env.token || envMissing env.zoneId || envMissing env.domainName then
    [Effect.printMsg envMsg, Effect.exitProc 1]
  else if argv.length ≠ 2 then
    [Effect.printMsg usageMsg, Effect.exitProc 1]
  else
    let domainName := env.domainName.getD ""
    let backupPart : List Effect :=
      [Effect.writeBackup (dumpYaml (configToYaml config)),
       Effect.printMsg "Backup of the original config file saved"]
    let scheme := normalizeScheme schemeRaw
    if scheme ≠ "http" ∧ scheme ≠ "https" then
      backupPart ++ [Effect.printMsg invalidSchemeMsg, Effect.exitProc 1]
    else
      let newConfig := applyTraefik config serviceName domainName scheme ipAddress
      let newSubdomain := serviceName ++ "." ++ domainName
      backupPart ++
      [Effect.writeConfig newConfig,
       Effect.printMsg ("Updated config file saved as " ++ argv.getD 1 ""),
       Effect.dnsPost newSubdomain domainName,
       Effect.printMsg (cloudflareMessage dnsStatus dnsText newSubdomain domainName),
       Effect.writeAutheliaBackup (dumpYaml (rulesToYaml autheliaRules)),
       Effect.printMsg "Backup of the original Authelia config file saved",
       Effect.writeAuthelia (updateRules autheliaRules newSubdomain),
       Effect.printMsg ("Authelia configuration updated with new subdomain " ++ newSubdomain)]

/-- The process exit status encoded by a trace: the first explicit
`sys.exit` code, or 0 when the script runs to the end. -/
def exitCodeOf : List Effect → Nat
  | [] => 0
  | Effect.exitProc c :: _ => c
  | _ :: es => exitCodeOf es

/-- Whether an effect mutates a file or external state (anything except
printing and exiting). -/
def isMutation : Effect → Bool
  | Effect.printMsg _ => false
  | Effect.exitProc _ => false
  | _ => true

-- ### Properties of the embedded string order

theorem goLe_total : ∀ as bs : List Char, goLe as bs = true ∨ goLe bs as = true := by
  intro as
  induction as with
  | nil => intro bs; left; rfl
  | cons a as ih =>
    intro bs
    cases bs with
    | nil => right; rfl
    | cons b bs =>
      by_cases hab : a < b
      · left; simp [goLe, hab]
      · by_cases hba : b < a
        · right; simp [goLe, hba]
        · cases ih bs with
          | inl h => left; simp [goLe, hab, hba, h]
          | inr h => right; simp [goLe, hab, hba, h]

theorem goLe_trans : ∀ as bs cs : List Char,
    goLe as bs = true → goLe bs cs = true → goLe as cs = true := by
  intro as
  induction as with
  | nil => intro bs cs _ _; rfl
  | cons a as ih =>
    intro bs cs h1 h2
    cases bs with
    | nil => simp [goLe] at h1
    | cons b bs =>
      cases cs with
      | nil => simp [goLe] at h2
      | cons c cs =>
        simp only [goLe] at h1 h2 ⊢
        by_cases hab : a < b
        · by_cases hbc : b < c
          · rw [if_pos (lt_trans hab hbc)]
          · by_cases hcb : c < b
            · rw [if_neg hbc, if_pos hcb] at h2
              exact absurd h2 (by simp)
            · have hbc2 : b = c := le_antisymm (not_lt.mp hcb) (not_lt.mp hbc)
              rw [if_pos (hbc2 ▸ hab)]
        · by_cases hba : b < a
          · rw [if_neg hab, if_pos hba] at h1
            exact absurd h1 (by simp)
          · have hab2 : a = b := le_antisymm (not_lt.mp hba) (not_lt.mp hab)
            subst hab2
            rw [if_neg hab, if_neg hba] at h1
            by_cases hac : a < c
            · rw [if_pos hac]
            · by_cases hca : c < a
              · rw [if_neg hac, if_pos hca] at h2
                exact absurd h2 (by simp)
              · rw [if_neg hac, if_neg hca] at h2 ⊢
                exact ih bs cs h1 h2

instance : IsTotal (String × Yaml) keyLe := ⟨fun p q => goLe_total p.1.data q.1.data⟩

instance : IsTrans (String × Yaml) keyLe :=
  ⟨fun _ _ _ h h' => goLe_trans _ _ _ h h'⟩

/-- The embedded Python comparison agrees with the standard lexicographic
order on strings. -/
theorem strLe_iff_le (a b : String) : strLe a b ↔ a ≤ b := by
  rw [String.le_iff_toList_le]
  show goLe a.data b.data = true ↔ a.data ≤ b.data
  generalize a.data = as
  generalize b.data = bs
  induction as generalizing bs with
  | nil => exact iff_of_true rfl List.nil_le
  | cons a as ih =>
    cases bs with
    | nil =>
      apply iff_of_false
      · simp [goLe]
      · exact not_le.mpr (List.nil_lt_cons a as)
    | cons b bs =>
      simp only [goLe]
      by_cases hab : a < b
      · rw [if_pos hab]
        apply iff_of_true rfl
        rw [← not_lt]
        intro hlt
        cases hlt with
        | cons h => exact lt_irrefl a hab
        | rel h => exact absurd hab (asymm h)
      · rw [if_neg hab]
        by_cases hba : b < a
        · rw [if_pos hba]
          apply iff_of_false (by simp)
          rw [← not_lt, Classical.not_not]
          exact List.Lex.rel hba
        · rw [if_neg hba]
          have hab2 : a = b := le_antisymm (not_lt.mp hba) (not_lt.mp hab)
          subst hab2
          rw [ih bs, ← not_lt, ← not_lt]
          constructor
          · intro h hlt
            exact h (List.Lex.cons_iff.mp hlt)
          · intro h hlt
            exact h (List.Lex.cons hlt)

-- ### Association-list lemmas

theorem lookupKey_mem {k : String} {v : Yaml} :
    ∀ {l : List (String × Yaml)}, lookupKey k l = some v → (k, v) ∈ l := by
  intro l
  induction l with
  | nil => intro h; simp [lookupKey] at h
  | cons p t ih =>
    obtain ⟨a, w⟩ := p
    intro h
    simp only [lookupKey] at h
    by_cases hak : a = k
    · rw [if_pos hak] at h
      injection h with h2
      subst h2
      subst hak
      exact List.mem_cons_self _ _
    · rw [if_neg hak] at h
      exact List.mem_cons_of_mem _ (ih h)

theorem mem_lookupKey {k : String} {v : Yaml} :
    ∀ {l : List (String × Yaml)}, (l.map Prod.fst).Nodup → (k, v) ∈ l →
      lookupKey k l = some v := by
  intro l
  induction l with
  | nil => intro _ h; simp at h
  | cons p t ih =>
    obtain ⟨a, w⟩ := p
    intro nd h
    rcases List.mem_cons.mp h with h1 | h1
    · cases h1
      simp [lookupKey]
    · have hak : a ≠ k := by
        intro hak
        subst hak
        have : a ∈ t.map Prod.fst := List.mem_map.mpr ⟨(a, v), h1, rfl⟩
        exact (List.nodup_cons.mp (by simpa using nd)).1 this
      simp only [lookupKey, if_neg hak]
      exact ih (List.nodup_cons.mp (by simpa using nd)).2 h1

theorem lookupKey_eq_none {k : String} :
    ∀ {l : List (String × Yaml)}, lookupKey k l = none ↔ k ∉ l.map Prod.fst := by
  intro l
  induction l with
  | nil => simp [lookupKey]
  | cons p t ih =>
    obtain ⟨a, w⟩ := p
    by_cases hak : a = k
    · subst hak
      simp [lookupKey]
    · simp [lookupKey, hak, ih, Ne.symm hak]

theorem lookupKey_perm {l₁ l₂ : List (String × Yaml)} (p : l₁.Perm l₂)
    (nd : (l₁.map Prod.fst).Nodup) (k : String) :
    lookupKey k l₁ = lookupKey k l₂ := by
  have ndk : (l₂.map Prod.fst).Nodup := ((p.map Prod.fst).nodup_iff).mp nd
  cases h : lookupKey k l₁ with
  | some v =>
    exact (mem_lookupKey ndk (p.mem_iff.mp (lookupKey_mem h))).symm
  | none =>
    have : k ∉ l₂.map Prod.fst := fun hk =>
      lookupKey_eq_none.mp h ((p.map Prod.fst).mem_iff.mpr hk)
    exact (lookupKey_eq_none.mpr this).symm

theorem setKey_keys_of_mem {d : List (String × Yaml)} {k : String} (v : Yaml)
    (h : k ∈ d.map Prod.fst) : (setKey d k v).map Prod.fst = d.map Prod.fst := by
  have hany : d.any (fun p => p.1 = k) = true := by
    rcases List.mem_map.mp h with ⟨p, hp, hpk⟩
    exact List.any_eq_true.mpr ⟨p, hp, by simp [hpk]⟩
  unfold setKey
  rw [if_pos (by simpa using hany), List.map_map]
  apply List.map_congr_left
  intro p _
  by_cases hpk : p.1 = k
  · simp [hpk]
  · simp [hpk]

theorem setKey_keys_of_not_mem {d : List (String × Yaml)} {k : String} (v : Yaml)
    (h : k ∉ d.map Prod.fst) :
    (setKey d k v).map Prod.fst = d.map Prod.fst ++ [k] := by
  have hany : d.any (fun p => p.1 = k) = false := by
    rw [List.any_eq_false]
    intro p hp
    simp only [decide_eq_true_eq]
    intro hpk
    exact h (List.mem_map.mpr ⟨p, hp, hpk⟩)
  unfold setKey
  rw [if_neg (by simp [hany]), List.map_append]
  rfl

theorem lookupKey_replace_self {k : String} {v : Yaml} :
    ∀ {d : List (String × Yaml)}, d.any (fun p => p.1 = k) = true →
      lookupKey k (d.map (fun p => if p.1 = k then (k, v) else p)) = some v := by
  intro d
  induction d with
  | nil => intro h; simp at h
  | cons p t ih =>
    obtain ⟨a, w⟩ := p
    intro h
    rw [List.map_cons]
    by_cases hak : a = k
    · rw [show (if (a, w).1 = k then (k, v) else (a, w)) = (k, v) from if_pos hak]
      simp [lookupKey]
    · rw [show (if (a, w).1 = k then (k, v) else (a, w)) = (a, w) from if_neg hak]
      have ht : t.any (fun p => p.1 = k) = true := by
        rcases List.any_eq_true.mp h with ⟨q, hq, hqk⟩
        rcases List.mem_cons.mp hq with rfl | hq2
        · exact absurd (by simpa using hqk) hak
        · exact List.any_eq_true.mpr ⟨q, hq2, hqk⟩
      simpa [lookupKey, hak] using ih ht

theorem lookupKey_replace_other {k k2 : String} {v : Yaml} (h : k2 ≠ k) :
    ∀ {d : List (String × Yaml)},
      lookupKey k2 (d.map (fun p => if p.1 = k then (k, v) else p)) = lookupKey k2 d := by
  intro d
  induction d with
  | nil => rfl
  | cons p t ih =>
    obtain ⟨a, w⟩ := p
    rw [List.map_cons]
    by_cases hak : a = k
    · rw [show (if (a, w).1 = k then (k, v) else (a, w)) = (k, v) from if_pos hak]
      subst hak
      simp [lookupKey, Ne.symm h, ih]
    · rw [show (if (a, w).1 = k then (k, v) else (a, w)) = (a, w) from if_neg hak]
      by_cases hak2 : a = k2
      · simp [lookupKey, hak2]
      · simp [lookupKey, hak2, ih]

theorem lookupKey_append_single_self {k : String} {v : Yaml} :
    ∀ {d : List (String × Yaml)}, k ∉ d.map Prod.fst →
      lookupKey k (d ++ [(k, v)]) = some v := by
  intro d
  induction d with
  | nil => simp [lookupKey]
  | cons p t ih =>
    obtain ⟨a, w⟩ := p
    intro h
    have hak : ¬a = k := by
      intro hak
      exact h (by simp [hak])
    simp only [List.cons_append, lookupKey, if_neg hak]
    exact ih (fun hm => h (List.mem_cons_of_mem _ hm))

theorem lookupKey_append_single_other {k k2 : String} {v : Yaml} (h : k2 ≠ k) :
    ∀ {d : List (String × Yaml)},
      lookupKey k2 (d ++ [(k, v)]) = lookupKey k2 d := by
  intro d
  induction d with
  | nil => simp [lookupKey, Ne.symm h]
  | cons p t ih =>
    obtain ⟨a, w⟩ := p
    by_cases hak2 : a = k2
    · simp [lookupKey, hak2]
    · simp only [List.cons_append, lookupKey, if_neg hak2]
      exact ih

theorem any_key_iff_mem {k : String} {d : List (String × Yaml)} :
    d.any (fun p => p.1 = k) = true ↔ k ∈ d.map Prod.fst := by
  rw [List.any_eq_true]
  constructor
  · rintro ⟨p, hp, hpk⟩
    exact List.mem_map.mpr ⟨p, hp, by simpa using hpk⟩
  · intro h
    rcases List.mem_map.mp h with ⟨p, hp, hpk⟩
    exact ⟨p, hp, by simp [hpk]⟩

theorem lookupKey_setKey_self {d : List (String × Yaml)} (k : String) (v : Yaml) :
    lookupKey k (setKey d k v) = some v := by
  unfold setKey
  by_cases hany : d.any (fun p => p.1 = k) = true
  · rw [if_pos (by simpa using hany)]
    exact lookupKey_replace_self hany
  · rw [if_neg (by simpa using hany)]
    exact lookupKey_append_single_self (fun hm => hany (any_key_iff_mem.mpr hm))

theorem lookupKey_setKey_other {d : List (String × Yaml)} {k k2 : String} (v : Yaml)
    (h : k2 ≠ k) : lookupKey k2 (setKey d k v) = lookupKey k2 d := by
  unfold setKey
  by_cases hany : d.any (fun p => p.1 = k) = true
  · rw [if_pos (by simpa using hany)]
    exact lookupKey_replace_other h
  · rw [if_neg (by simpa using hany)]
    exact lookupKey_append_single_other h

theorem setKey_nodup_keys {d : List (String × Yaml)} {k : String} (v : Yaml)
    (nd : (d.map Prod.fst).Nodup) : ((setKey d k v).map Prod.fst).Nodup := by
  by_cases h : k ∈ d.map Prod.fst
  · rw [setKey_keys_of_mem v h]; exact nd
  · rw [setKey_keys_of_not_mem v h, List.nodup_append]
    refine ⟨nd, List.nodup_singleton k, ?_⟩
    intro a ha hmem
    rw [List.mem_singleton] at hmem
    subst hmem
    exact h ha

theorem setKey_keys_mem {d : List (String × Yaml)} {k k2 : String} (v : Yaml)
    (h : k2 ∈ d.map Prod.fst) : k2 ∈ (setKey d k v).map Prod.fst := by
  by_cases hm : k ∈ d.map Prod.fst
  · rw [setKey_keys_of_mem v hm]; exact h
  · rw [setKey_keys_of_not_mem v hm]; exact List.mem_append_left _ h

-- ### Sorting lemmas

theorem dictUpdate_single (d : List (String × Yaml)) (k : String) (v : Yaml) :
    dictUpdate d [(k, v)] = setKey d k v := rfl

theorem sortByKey_perm (d : List (String × Yaml)) : (sortByKey d).Perm d :=
  List.perm_insertionSort keyLe d

theorem sortByKey_nodup_keys {d : List (String × Yaml)}
    (nd : (d.map Prod.fst).Nodup) : ((sortByKey d).map Prod.fst).Nodup :=
  (((sortByKey_perm d).map Prod.fst).nodup_iff).mpr nd

theorem sortByKey_sorted (d : List (String × Yaml)) :
    List.Sorted (· ≤ ·) ((sortByKey d).map Prod.fst) := by
  have h : List.Sorted keyLe (sortByKey d) := List.sorted_insertionSort keyLe d
  exact List.Pairwise.map Prod.fst (fun a b hab => (strLe_iff_le a.1 b.1).mp hab) h

theorem lookupKey_sortByKey {d : List (String × Yaml)}
    (nd : (d.map Prod.fst).Nodup) (k : String) :
    lookupKey k (sortByKey d) = lookupKey k d :=
  lookupKey_perm (sortByKey_perm d) (sortByKey_nodup_keys nd) k

theorem sortByKey_keys_mem {d : List (String × Yaml)} {k : String}
    (h : k ∈ d.map Prod.fst) : k ∈ (sortByKey d).map Prod.fst :=
  ((sortByKey_perm d).map Prod.fst).mem_iff.mpr h

-- ### Lemmas about the router/service merge

theorem applyTraefik_lookup_router_self (cfg : TraefikConfig)
    (s dn sch ip : String) (nd : (cfg.routers.map Prod.fst).Nodup) :
    lookupKey s (applyTraefik cfg s dn sch ip).routers = some (routerVal s dn) := by
  show lookupKey s (sortByKey (dictUpdate cfg.routers (routerEntry s dn))) = _
  rw [routerEntry, dictUpdate_single,
      lookupKey_sortByKey (setKey_nodup_keys _ nd) s,
      lookupKey_setKey_self]

theorem applyTraefik_lookup_service_self (cfg : TraefikConfig)
    (s dn sch ip : String) (nd : (cfg.services.map Prod.fst).Nodup) :
    lookupKey (s ++ "-svc") (applyTraefik cfg s dn sch ip).services =
      some (serviceVal sch ip) := by
  show lookupKey (s ++ "-svc") (sortByKey (dictUpdate cfg.services (serviceEntry s sch ip))) = _
  rw [serviceEntry, dictUpdate_single,
      lookupKey_sortByKey (setKey_nodup_keys _ nd) _,
      lookupKey_setKey_self]

theorem applyTraefik_lookup_router_other (cfg : TraefikConfig)
    (s dn sch ip : String) (nd : (cfg.routers.map Prod.fst).Nodup)
    {k : String} (hk : k ≠ s) :
    lookupKey k (applyTraefik cfg s dn sch ip).routers = lookupKey k cfg.routers := by
  show lookupKey k (sortByKey (dictUpdate cfg.routers (routerEntry s dn))) = _
  rw [routerEntry, dictUpdate_single,
      lookupKey_sortByKey (setKey_nodup_keys _ nd) k,
      lookupKey_setKey_other _ hk]

theorem applyTraefik_lookup_service_other (cfg : TraefikConfig)
    (s dn sch ip : String) (nd : (cfg.services.map Prod.fst).Nodup)
    {k : String} (hk : k ≠ s ++ "-svc") :
    lookupKey k (applyTraefik cfg s dn sch ip).services = lookupKey k cfg.services := by
  show lookupKey k (sortByKey (dictUpdate cfg.services (serviceEntry s sch ip))) = _
  rw [serviceEntry, dictUpdate_single,
      lookupKey_sortByKey (setKey_nodup_keys _ nd) k,
      lookupKey_setKey_other _ hk]

theorem applyTraefik_nodup_keys (cfg : TraefikConfig) (s dn sch ip : String)
    (ndr : (cfg.routers.map Prod.fst).Nodup) (nds : (cfg.services.map Prod.fst).Nodup) :
    (((applyTraefik cfg s dn sch ip).routers.map Prod.fst).Nodup ∧
     ((applyTraefik cfg s dn sch ip).services.map Prod.fst).Nodup) :=
  ⟨sortByKey_nodup_keys (by rw [routerEntry, dictUpdate_single]; exact setKey_nodup_keys _ ndr),
   sortByKey_nodup_keys (by rw [serviceEntry, dictUpdate_single]; exact setKey_nodup_keys _ nds)⟩

theorem applyTraefik_keys_mem_routers (cfg : TraefikConfig) (s dn sch ip : String)
    {k : String} (h : k ∈ cfg.routers.map Prod.fst) :
    k ∈ (applyTraefik cfg s dn sch ip).routers.map Prod.fst := by
  apply sortByKey_keys_mem
  rw [routerEntry, dictUpdate_single]
  exact setKey_keys_mem _ h

theorem applyTraefik_keys_mem_services (cfg : TraefikConfig) (s dn sch ip : String)
    {k : String} (h : k ∈ cfg.services.map Prod.fst) :
    k ∈ (applyTraefik cfg s dn sch ip).services.map Prod.fst := by
  apply sortByKey_keys_mem
  rw [serviceEntry, dictUpdate_single]
  exact setKey_keys_mem _ h

-- ### Lemmas about the Authelia rule update

theorem updateRules_first_match (pre post : List AccessRule) (r : AccessRule)
    (sub : String) (hpre : ∀ x ∈ pre, x.policy ≠ "one_factor")
    (hr : r.policy = "one_factor") :
    updateRules (pre ++ r :: post) sub =
      pre ++ { r with domain := r.domain ++ [sub] } :: post := by
  induction pre with
  | nil => simp [updateRules, hr]
  | cons p ps ih =>
    have hp : p.policy ≠ "one_factor" := hpre p (List.mem_cons_self _ _)
    simp only [List.cons_append, updateRules, if_neg hp, List.append_eq]
    rw [ih (fun x hx => hpre x (List.mem_cons_of_mem _ hx))]

theorem updateRules_no_match (rules : List AccessRule) (sub : String)
    (h : ∀ x ∈ rules, x.policy ≠ "one_factor") :
    updateRules rules sub = rules ++ [⟨[sub], "one_factor", []⟩] := by
  induction rules with
  | nil => simp [updateRules]
  | cons p ps ih =>
    have hp : p.policy ≠ "one_factor" := h p (List.mem_cons_self _ _)
    simp only [List.cons_append, updateRules, if_neg hp, List.append_eq]
    rw [ih (fun x hx => h x (List.mem_cons_of_mem _ hx))]

theorem updateRules_domainCount (rules : List AccessRule) (sub : String) :
    domainCount (updateRules rules sub) sub = domainCount rules sub + 1 := by
  induction rules with
  | nil => simp [updateRules, domainCount]
  | cons r rs ih =>
    by_cases hr : r.policy = "one_factor"
    · simp only [updateRules, if_pos hr, domainCount, List.map_cons, List.sum_cons,
        List.count_append]
      simp [domainCount]
      omega
    · simp only [updateRules, if_neg hr, domainCount, List.map_cons, List.sum_cons]
      simp only [domainCount] at ih
      omega

-- ### Round trip of the modelled YAML serializer

theorem dumpYaml_head (v : Yaml) :
    ∃ t ts, dumpYaml v = t :: ts ∧ t ≠ Tok.arrClose ∧ t ≠ Tok.mapClose := by
  cases v with
  | s x => exact ⟨Tok.scalarS x, [], by simp [dumpYaml], by simp, by simp⟩
  | b x => exact ⟨Tok.scalarB x, [], by simp [dumpYaml], by simp, by simp⟩
  | i x => exact ⟨Tok.scalarI x, [], by simp [dumpYaml], by simp, by simp⟩
  | arr vs => exact ⟨Tok.arrOpen, dumpItems vs, by simp [dumpYaml], by simp, by simp⟩
  | map ps => exact ⟨Tok.mapOpen, dumpPairs ps, by simp [dumpYaml], by simp, by simp⟩

theorem sizeY_pos (v : Yaml) : 1 ≤ sizeY v := by
  cases v <;> simp [sizeY]

theorem sizeItems_pos (vs : List Yaml) : 1 ≤ sizeItems vs := by
  cases vs with
  | nil => simp [sizeItems]
  | cons v t => simp only [sizeItems]; omega

theorem sizePairs_pos (ps : List (String × Yaml)) : 1 ≤ sizePairs ps := by
  cases ps with
  | nil => simp [sizePairs]
  | cons p t => obtain ⟨k, v⟩ := p; simp only [sizePairs]; omega

theorem parse_dump (n : Nat) :
    (∀ (v : Yaml) (rest : List Tok), sizeY v ≤ n →
       pVal n (dumpYaml v ++ rest) = some (v, rest)) ∧
    (∀ (vs : List Yaml) (rest : List Tok), sizeItems vs ≤ n →
       pItems n (dumpItems vs ++ rest) = some (vs, rest)) ∧
    (∀ (ps : List (String × Yaml)) (rest : List Tok), sizePairs ps ≤ n →
       pPairs n (dumpPairs ps ++ rest) = some (ps, rest)) := by
  induction n with
  | zero =>
    refine ⟨fun v rest h => absurd h ?_, fun vs rest h => absurd h ?_,
            fun ps rest h => absurd h ?_⟩
    · exact Nat.not_succ_le_zero 0 ∘ le_trans (sizeY_pos v)
    · exact Nat.not_succ_le_zero 0 ∘ le_trans (sizeItems_pos vs)
    · exact Nat.not_succ_le_zero 0 ∘ le_trans (sizePairs_pos ps)
  | succ n ih =>
    obtain ⟨ihV, ihI, ihP⟩ := ih
    refine ⟨?_, ?_, ?_⟩
    · intro v rest h
      cases v with
      | s x => simp [dumpYaml, pVal]
      | b x => simp [dumpYaml, pVal]
      | i x => simp [dumpYaml, pVal]
      | arr vs =>
        have h2 : sizeItems vs ≤ n := by
          simp only [sizeY] at h
          omega
        simp only [dumpYaml, List.cons_append, pVal]
        rw [ihI vs rest h2]
      | map ps =>
        have h2 : sizePairs ps ≤ n := by
          simp only [sizeY] at h
          omega
        simp only [dumpYaml, List.cons_append, pVal]
        rw [ihP ps rest h2]
    · intro vs rest h
      cases vs with
      | nil =>
        simp [dumpItems, pItems]
      | cons v vs =>
        have hv : sizeY v ≤ n := by
          simp only [sizeItems] at h
          omega
        have hvs : sizeItems vs ≤ n := by
          simp only [sizeItems] at h
          omega
        obtain ⟨t, ts, hd, hne, _⟩ := dumpYaml_head v
        have hhead : (dumpYaml v ++ (dumpItems vs ++ rest)).head? ≠ some Tok.arrClose := by
          rw [hd]
          simpa using hne
        simp only [dumpItems, List.append_assoc, pItems, if_neg hhead,
          ihV v (dumpItems vs ++ rest) hv, ihI vs rest hvs]
    · intro ps rest h
      cases ps with
      | nil =>
        simp [dumpPairs, pPairs]
      | cons p ps =>
        obtain ⟨k, v⟩ := p
        have hv : sizeY v ≤ n := by
          simp only [sizePairs] at h
          omega
        have hps : sizePairs ps ≤ n := by
          simp only [sizePairs] at h
          omega
        simp only [dumpPairs, List.cons_append, List.append_assoc, pPairs]
        rw [if_neg (by simp)]
        simp only [ihV v (dumpPairs ps ++ rest) hv, ihP ps rest hps]

/-- The modelled serializer round-trips: parsing the dump of any document
returns the document, with no tokens left over. -/
theorem parse_dump_eq (v : Yaml) : pVal (sizeY v) (dumpYaml v) = some (v, []) := by
  have h := (parse_dump (sizeY v)).1 v [] le_rfl
  simpa using h

-- ### Path lemmas for the whole program

theorem runProgram_env_fail (env : EnvVars) (argv : List String) (config : TraefikConfig)
    (s ip raw : String) (status : Nat) (text : String) (rules : List AccessRule)
    (he : (envMissing env.token || envMissing env.zoneId || envMissing env.domainName) = true) :
    runProgram env argv config s ip raw status text rules =
      [Effect.printMsg envMsg, Effect.exitProc 1] := by
  simp only [runProgram, he, if_true]

theorem runProgram_argv_fail (env : EnvVars) (argv : List String) (config : TraefikConfig)
    (s ip raw : String) (status : Nat) (text : String) (rules : List AccessRule)
    (he : (envMissing env.token || envMissing env.zoneId || envMissing env.domainName) = false)
    (ha : argv.length ≠ 2) :
    runProgram env argv config s ip raw status text rules =
      [Effect.printMsg usageMsg, Effect.exitProc 1] := by
  simp only [runProgram, he, ha, Bool.false_eq_true, if_false, ne_eq, not_false_eq_true,
    if_true]

theorem runProgram_scheme_fail (env : EnvVars) (argv : List String) (config : TraefikConfig)
    (s ip raw : String) (status : Nat) (text : String) (rules : List AccessRule)
    (he : (envMissing env.token || envMissing env.zoneId || envMissing env.domainName) = false)
    (ha : argv.length = 2)
    (hs : normalizeScheme raw ≠ "http" ∧ normalizeScheme raw ≠ "https") :
    runProgram env argv config s ip raw status text rules =
      [Effect.writeBackup (dumpYaml (configToYaml config)),
       Effect.printMsg "Backup of the original config file saved",
       Effect.printMsg invalidSchemeMsg, Effect.exitProc 1] := by
  simp only [runProgram, he, ha, hs, Bool.false_eq_true, if_false, ne_eq,
    not_true_eq_false, and_self, if_true, List.cons_append, List.nil_append]
  simp [hs.1, hs.2]

/-- The effect trace of a run that passes all three input checks. -/
theorem runProgram_success (env : EnvVars) (argv : List String) (config : TraefikConfig)
    (s ip raw : String) (status : Nat) (text : String) (rules : List AccessRule)
    (he : (envMissing env.token || envMissing env.zoneId || envMissing env.domainName) = false)
    (ha : argv.length = 2)
    (hs : normalizeScheme raw = "http" ∨ normalizeScheme raw = "https") :
    runProgram env argv config s ip raw status text rules =
    [Effect.writeBackup (dumpYaml (configToYaml config)),
     Effect.printMsg "Backup of the original config file saved",
     Effect.writeConfig (applyTraefik config s (env.domainName.getD "") (normalizeScheme raw) ip),
     Effect.printMsg ("Updated config file saved as " ++ argv.getD 1 ""),
     Effect.dnsPost (s ++ "." ++ env.domainName.getD "") (env.domainName.getD ""),
     Effect.printMsg (cloudflareMessage status text (s ++ "." ++ env.domainName.getD "")
       (env.domainName.getD "")),
     Effect.writeAutheliaBackup (dumpYaml (rulesToYaml rules)),
     Effect.printMsg "Backup of the original Authelia config file saved",
     Effect.writeAuthelia (updateRules rules (s ++ "." ++ env.domainName.getD "")),
     Effect.printMsg ("Authelia configuration updated with new subdomain " ++
       (s ++ "." ++ env.domainName.getD ""))] := by
  have h3 : ¬(normalizeScheme raw ≠ "http" ∧ normalizeScheme raw ≠ "https") := by
    rcases hs with h | h <;> simp [h]
  simp only [runProgram, he, ha, h3, Bool.false_eq_true, if_false, ne_eq,
    not_true_eq_false, List.cons_append, List.nil_append, ite_false]

-- ### Claim theorems

/-- C1: for every routing document and every set of user inputs, after the
router/service merge both the `http.routers` mapping and the `http.services`
mapping are sorted by key (lexicographically ascending); in particular,
starting from routers `{zeta: ...}` and inserting service name `alpha` yields
key order `[alpha, zeta]`. -/
theorem merge_keeps_mappings_sorted (cfg : TraefikConfig) (s dn sch ip : String)
    (z : Yaml) (zs : List (String × Yaml)) :
    List.Sorted (· ≤ ·) ((applyTraefik cfg s dn sch ip).routers.map Prod.fst) ∧
    List.Sorted (· ≤ ·) ((applyTraefik cfg s dn sch ip).services.map Prod.fst) ∧
    (applyTraefik ⟨[("zeta", z)], zs⟩ "alpha" "example.com" sch ip).routers.map Prod.fst =
      ["alpha", "zeta"] := by
  refine ⟨sortByKey_sorted _, sortByKey_sorted _, ?_⟩
  show (sortByKey (dictUpdate [("zeta", z)] (routerEntry "alpha" "example.com"))).map
      Prod.fst = _
  rw [routerEntry, dictUpdate_single]
  have hset : setKey [("zeta", z)] "alpha" (routerVal "alpha" "example.com") =
      [("zeta", z), ("alpha", routerVal "alpha" "example.com")] := by
    simp [setKey]
  rw [hset]
  show (List.insertionSort keyLe
      [("zeta", z), ("alpha", routerVal "alpha" "example.com")]).map Prod.fst = _
  simp only [List.insertionSort, List.orderedInsert]
  rw [if_neg (show ¬keyLe ("zeta", z) ("alpha", routerVal "alpha" "example.com") from
    (by decide : ¬strLe "zeta" "alpha"))]
  simp

/-- C2: when the rule list contains a rule with policy `one_factor`, the
Authelia update appends the new subdomain to the first such rule's domain
list and adds no new rule; when no rule has that policy, it appends the rule
`{domain: [new_subdomain], policy: one_factor}` at the end. -/
theorem authelia_update_rule_selection (pre post rules2 : List AccessRule)
    (r : AccessRule) (sub : String)
    (hpre : ∀ x ∈ pre, x.policy ≠ "one_factor") (hr : r.policy = "one_factor")
    (hno : ∀ x ∈ rules2, x.policy ≠ "one_factor") :
    updateRules (pre ++ r :: post) sub =
      pre ++ { r with domain := r.domain ++ [sub] } :: post ∧
    (updateRules (pre ++ r :: post) sub).length = (pre ++ r :: post).length ∧
    updateRules rules2 sub = rules2 ++ [⟨[sub], "one_factor", []⟩] := by
  refine ⟨updateRules_first_match pre post r sub hpre hr, ?_,
    updateRules_no_match rules2 sub hno⟩
  rw [updateRules_first_match pre post r sub hpre hr]
  simp

/-- Witness for C2 at concrete inputs. -/
theorem authelia_update_rule_selection_witness :
    updateRules ([ruleTwoFactor] ++ ruleOneFactor :: [ruleBypass]) "foo.example.com" =
      [ruleTwoFactor] ++
        { ruleOneFactor with
          domain := ruleOneFactor.domain ++ ["foo.example.com"] } :: [ruleBypass] ∧
    (updateRules ([ruleTwoFactor] ++ ruleOneFactor :: [ruleBypass])
        "foo.example.com").length =
      ([ruleTwoFactor] ++ ruleOneFactor :: [ruleBypass]).length ∧
    updateRules [ruleBypass] "foo.example.com" =
      [ruleBypass] ++ [⟨["foo.example.com"], "one_factor", []⟩] :=
  authelia_update_rule_selection [ruleTwoFactor] [ruleBypass] [ruleBypass]
    ruleOneFactor "foo.example.com" (by decide) rfl (by decide)

/-- C7: the update is not idempotent. A colliding router/service key loses
its prior definition (the first application already stores the templated
values, whatever was there before), the second application stores them
again, and the Authelia update appends the same subdomain once per run, so
two runs add it twice. -/
theorem update_not_idempotent (cfg : TraefikConfig) (s dn sch ip : String)
    (rules : List AccessRule) (sub : String) (v0 w0 : Yaml)
    (ndr : (cfg.routers.map Prod.fst).Nodup) (nds : (cfg.services.map Prod.fst).Nodup)
    (_hv : lookupKey s cfg.routers = some v0)
    (_hw : lookupKey (s ++ "-svc") cfg.services = some w0) :
    lookupKey s (applyTraefik cfg s dn sch ip).routers = some (routerVal s dn) ∧
    lookupKey (s ++ "-svc") (applyTraefik cfg s dn sch ip).services =
      some (serviceVal sch ip) ∧
    lookupKey s (applyTraefik (applyTraefik cfg s dn sch ip) s dn sch ip).routers =
      some (routerVal s dn) ∧
    lookupKey (s ++ "-svc")
        (applyTraefik (applyTraefik cfg s dn sch ip) s dn sch ip).services =
      some (serviceVal sch ip) ∧
    domainCount (updateRules (updateRules rules sub) sub) sub =
      domainCount rules sub + 2 := by
  obtain ⟨ndr2, nds2⟩ := applyTraefik_nodup_keys cfg s dn sch ip ndr nds
  refine ⟨applyTraefik_lookup_router_self cfg s dn sch ip ndr,
    applyTraefik_lookup_service_self cfg s dn sch ip nds,
    applyTraefik_lookup_router_self _ s dn sch ip ndr2,
    applyTraefik_lookup_service_self _ s dn sch ip nds2, ?_⟩
  rw [updateRules_domainCount, updateRules_domainCount]

/-- Witness for C7 at concrete inputs. -/
theorem update_not_idempotent_witness :
    lookupKey "app"
        (applyTraefik ⟨[("app", Yaml.map [])], [("app-svc", Yaml.map [])]⟩
          "app" "example.com" "http" "10.0.0.1").routers =
      some (routerVal "app" "example.com") ∧
    lookupKey ("app" ++ "-svc")
        (applyTraefik ⟨[("app", Yaml.map [])], [("app-svc", Yaml.map [])]⟩
          "app" "example.com" "http" "10.0.0.1").services =
      some (serviceVal "http" "10.0.0.1") ∧
    lookupKey "app"
        (applyTraefik
          (applyTraefik ⟨[("app", Yaml.map [])], [("app-svc", Yaml.map [])]⟩
            "app" "example.com" "http" "10.0.0.1")
          "app" "example.com" "http" "10.0.0.1").routers =
      some (routerVal "app" "example.com") ∧
    lookupKey ("app" ++ "-svc")
        (applyTraefik
          (applyTraefik ⟨[("app", Yaml.map [])], [("app-svc", Yaml.map [])]⟩
            "app" "example.com" "http" "10.0.0.1")
          "app" "example.com" "http" "10.0.0.1").services =
      some (serviceVal "http" "10.0.0.1") ∧
    domainCount
        (updateRules
          (updateRules [⟨["x.example.com"], "one_factor", []⟩] "app.example.com")
          "app.example.com") "app.example.com" =
      domainCount [⟨["x.example.com"], "one_factor", []⟩] "app.example.com" + 2 :=
  update_not_idempotent _ "app" "example.com" "http" "10.0.0.1" _ "app.example.com"
    (Yaml.map []) (Yaml.map []) (by decide) (by decide) rfl rfl

/-- C10: the merge changes at most the entered router key and its `-svc`
service key: every other router/service key keeps its definition, and no
existing key is removed. -/
theorem merge_frame_property (cfg : TraefikConfig) (s dn sch ip k : String)
    (ndr : (cfg.routers.map Prod.fst).Nodup)
    (nds : (cfg.services.map Prod.fst).Nodup) :
    (k ≠ s →
      lookupKey k (applyTraefik cfg s dn sch ip).routers = lookupKey k cfg.routers) ∧
    (k ≠ s ++ "-svc" →
      lookupKey k (applyTraefik cfg s dn sch ip).services = lookupKey k cfg.services) ∧
    (k ∈ cfg.routers.map Prod.fst →
      k ∈ (applyTraefik cfg s dn sch ip).routers.map Prod.fst) ∧
    (k ∈ cfg.services.map Prod.fst →
      k ∈ (applyTraefik cfg s dn sch ip).services.map Prod.fst) :=
  ⟨fun hk => applyTraefik_lookup_router_other cfg s dn sch ip ndr hk,
   fun hk => applyTraefik_lookup_service_other cfg s dn sch ip nds hk,
   fun hk => applyTraefik_keys_mem_routers cfg s dn sch ip hk,
   fun hk => applyTraefik_keys_mem_services cfg s dn sch ip hk⟩

/-- Witness for C10 at concrete inputs. -/
theorem merge_frame_property_witness :
    lookupKey "zeta"
        (applyTraefik ⟨[("zeta", Yaml.map [])], [("zeta-svc", Yaml.map [])]⟩
          "alpha" "example.com" "http" "10.0.0.1").routers =
      lookupKey "zeta" [("zeta", Yaml.map [])] ∧
    lookupKey "zeta-svc"
        (applyTraefik ⟨[("zeta", Yaml.map [])], [("zeta-svc", Yaml.map [])]⟩
          "alpha" "example.com" "http" "10.0.0.1").services =
      lookupKey "zeta-svc" [("zeta-svc", Yaml.map [])] ∧
    "zeta" ∈ (applyTraefik ⟨[("zeta", Yaml.map [])], [("zeta-svc", Yaml.map [])]⟩
      "alpha" "example.com" "http" "10.0.0.1").routers.map Prod.fst ∧
    "zeta-svc" ∈ (applyTraefik ⟨[("zeta", Yaml.map [])], [("zeta-svc", Yaml.map [])]⟩
      "alpha" "example.com" "http" "10.0.0.1").services.map Prod.fst :=
  ⟨(merge_frame_property _ "alpha" "example.com" "http" "10.0.0.1" "zeta"
      (by decide) (by decide)).1 (by decide),
   (merge_frame_property _ "alpha" "example.com" "http" "10.0.0.1" "zeta-svc"
      (by decide) (by decide)).2.1 (by decide),
   (merge_frame_property _ "alpha" "example.com" "http" "10.0.0.1" "zeta"
      (by decide) (by decide)).2.2.1 (by decide),
   (merge_frame_property _ "alpha" "example.com" "http" "10.0.0.1" "zeta-svc"
      (by decide) (by decide)).2.2.2 (by decide)⟩

/-- C3: a DNS status of 200/201 prints the success message, 409 prints the
"already exists" message and is not an error, and any other status prints a
failure message carrying the status code and response body; in every case
the process continues, exits with code 0, and the Authelia update still
happens. -/
theorem dns_response_handling (env : EnvVars) (argv : List String)
    (config : TraefikConfig) (s ip raw : String) (status : Nat) (text : String)
    (rules : List AccessRule)
    (he : (envMissing env.token || envMissing env.zoneId || envMissing env.domainName) = false)
    (ha : argv.length = 2)
    (hs : normalizeScheme raw = "http" ∨ normalizeScheme raw = "https") :
    exitCodeOf (runProgram env argv config s ip raw status text rules) = 0 ∧
    Effect.writeAuthelia (updateRules rules (s ++ "." ++ env.domainName.getD "")) ∈
      runProgram env argv config s ip raw status text rules ∧
    (status = 200 ∨ status = 201 →
      Effect.printMsg ("Successfully added CNAME record: " ++
          (s ++ "." ++ env.domainName.getD "") ++ " -> " ++ env.domainName.getD "") ∈
        runProgram env argv config s ip raw status text rules) ∧
    (status = 409 →
      Effect.printMsg ("CNAME record already exists: " ++
          (s ++ "." ++ env.domainName.getD "") ++ " -> " ++ env.domainName.getD "") ∈
        runProgram env argv config s ip raw status text rules) ∧
    (¬(status = 200 ∨ status = 201) → status ≠ 409 →
      Effect.printMsg ("Failed to add CNAME record: " ++ toString status ++
          " - " ++ text) ∈
        runProgram env argv config s ip raw status text rules) := by
  rw [runProgram_success env argv config s ip raw status text rules he ha hs]
  refine ⟨rfl, by simp, ?_, ?_, ?_⟩
  · intro h
    simp [cloudflareMessage, h]
  · intro h
    subst h
    simp [cloudflareMessage]
  · intro h1 h2
    simp [cloudflareMessage, h1, h2]

/-- Witness for C3 at concrete inputs, on the 409 branch. -/
theorem dns_response_handling_witness :
    exitCodeOf (runProgram envW argvW cfgW "alpha" "10.0.0.1" "https" 409 "conflict"
      [ruleOneFactor]) = 0 ∧
    Effect.writeAuthelia (updateRules [ruleOneFactor] ("alpha" ++ "." ++ "example.com")) ∈
      runProgram envW argvW cfgW "alpha" "10.0.0.1" "https" 409 "conflict"
        [ruleOneFactor] ∧
    Effect.printMsg ("CNAME record already exists: " ++
        ("alpha" ++ "." ++ "example.com") ++ " -> " ++ "example.com") ∈
      runProgram envW argvW cfgW "alpha" "10.0.0.1" "https" 409 "conflict"
        [ruleOneFactor] :=
  have h := dns_response_handling envW argvW cfgW "alpha" "10.0.0.1" "https" 409
    "conflict" [ruleOneFactor] (by decide) (by decide) (Or.inr (by decide))
  ⟨h.1, h.2.1, h.2.2.2.1 rfl⟩

/-- C4: when an environment value is missing or empty, or `sys.argv` does not
carry exactly one positional argument, the process prints a diagnostic and
exits with code 1, and the trace holds no file, DNS, or access-control
mutation. -/
theorem precheck_failure_exits_clean (env : EnvVars) (argv : List String)
    (config : TraefikConfig) (s ip raw : String) (status : Nat) (text : String)
    (rules : List AccessRule)
    (h : (envMissing env.token || envMissing env.zoneId || envMissing env.domainName) = true ∨
      argv.length ≠ 2) :
    exitCodeOf (runProgram env argv config s ip raw status text rules) = 1 ∧
    (runProgram env argv config s ip raw status text rules).filter isMutation = [] ∧
    (runProgram env argv config s ip raw status text rules =
        [Effect.printMsg envMsg, Effect.exitProc 1] ∨
     runProgram env argv config s ip raw status text rules =
        [Effect.printMsg usageMsg, Effect.exitProc 1]) := by
  cases he : (envMissing env.token || envMissing env.zoneId || envMissing env.domainName) with
  | true =>
    rw [runProgram_env_fail env argv config s ip raw status text rules he]
    exact ⟨rfl, rfl, Or.inl rfl⟩
  | false =>
    rcases h with h | h
    · rw [he] at h
      cases h
    · rw [runProgram_argv_fail env argv config s ip raw status text rules he h]
      exact ⟨rfl, rfl, Or.inr rfl⟩

/-- Witness for C4 at concrete inputs (missing API token). -/
theorem precheck_failure_exits_clean_witness :
    exitCodeOf (runProgram ⟨none, some "zone", some "example.com"⟩ argvW cfgW
      "alpha" "10.0.0.1" "https" 200 "" [ruleOneFactor]) = 1 ∧
    (runProgram ⟨none, some "zone", some "example.com"⟩ argvW cfgW
      "alpha" "10.0.0.1" "https" 200 "" [ruleOneFactor]).filter isMutation = [] ∧
    (runProgram ⟨none, some "zone", some "example.com"⟩ argvW cfgW
        "alpha" "10.0.0.1" "https" 200 "" [ruleOneFactor] =
        [Effect.printMsg envMsg, Effect.exitProc 1] ∨
     runProgram ⟨none, some "zone", some "example.com"⟩ argvW cfgW
        "alpha" "10.0.0.1" "https" 200 "" [ruleOneFactor] =
        [Effect.printMsg usageMsg, Effect.exitProc 1]) :=
  precheck_failure_exits_clean ⟨none, some "zone", some "example.com"⟩ argvW cfgW
    "alpha" "10.0.0.1" "https" 200 "" [ruleOneFactor] (Or.inl (by decide))

/-- C5: the scheme is normalized by stripping surrounding whitespace and
lowercasing; anything that does not normalize to `http`/`https` aborts with
the diagnostic and exit code 1; input `HTTPS` normalizes to `https` and the
stored backend URL begins with lowercase `https://`. -/
theorem scheme_normalization (env : EnvVars) (argv : List String)
    (config : TraefikConfig) (s ip raw : String) (status : Nat) (text : String)
    (rules : List AccessRule)
    (he : (envMissing env.token || envMissing env.zoneId || envMissing env.domainName) = false)
    (ha : argv.length = 2) :
    (normalizeScheme raw ≠ "http" ∧ normalizeScheme raw ≠ "https" →
      runProgram env argv config s ip raw status text rules =
        [Effect.writeBackup (dumpYaml (configToYaml config)),
         Effect.printMsg "Backup of the original config file saved",
         Effect.printMsg invalidSchemeMsg, Effect.exitProc 1] ∧
      exitCodeOf (runProgram env argv config s ip raw status text rules) = 1) ∧
    normalizeScheme "HTTPS" = "https" ∧
    Effect.writeConfig (applyTraefik config s (env.domainName.getD "") "https" ip) ∈
      runProgram env argv config s ip "HTTPS" status text rules ∧
    serviceVal "https" ip =
      Yaml.map [("loadBalancer", Yaml.map
        [("servers", Yaml.arr [Yaml.map [("url", Yaml.s ("https://" ++ (ip ++ "/")))]]),
         ("passHostHeader", Yaml.b true)])] := by
  refine ⟨?_, by decide, ?_, ?_⟩
  · intro hbad
    have ht := runProgram_scheme_fail env argv config s ip raw status text rules he ha hbad
    rw [ht]
    exact ⟨rfl, rfl⟩
  · rw [runProgram_success env argv config s ip "HTTPS" status text rules he ha
      (Or.inr (by decide))]
    rw [show normalizeScheme "HTTPS" = "https" from by decide]
    simp
  · simp [serviceVal, String.append_assoc]

/-- Witness for C5 at concrete inputs (`ftp` aborts, `HTTPS` lowercases). -/
theorem scheme_normalization_witness :
    (runProgram envW argvW cfgW "alpha" "10.0.0.1" "ftp" 200 "" [ruleOneFactor] =
        [Effect.writeBackup (dumpYaml (configToYaml cfgW)),
         Effect.printMsg "Backup of the original config file saved",
         Effect.printMsg invalidSchemeMsg, Effect.exitProc 1] ∧
      exitCodeOf (runProgram envW argvW cfgW "alpha" "10.0.0.1" "ftp" 200 ""
        [ruleOneFactor]) = 1) ∧
    normalizeScheme "HTTPS" = "https" ∧
    Effect.writeConfig (applyTraefik cfgW "alpha" "example.com" "https" "10.0.0.1") ∈
      runProgram envW argvW cfgW "alpha" "10.0.0.1" "HTTPS" 200 "" [ruleOneFactor] ∧
    serviceVal "https" "10.0.0.1" =
      Yaml.map [("loadBalancer", Yaml.map
        [("servers", Yaml.arr [Yaml.map [("url",
            Yaml.s ("https://" ++ ("10.0.0.1" ++ "/")))]]),
         ("passHostHeader", Yaml.b true)])] :=
  have h1 := scheme_normalization envW argvW cfgW "alpha" "10.0.0.1" "ftp" 200 ""
    [ruleOneFactor] (by decide) (by decide)
  have h2 := scheme_normalization envW argvW cfgW "alpha" "10.0.0.1" "HTTPS" 200 ""
    [ruleOneFactor] (by decide) (by decide)
  ⟨h1.1 (by decide), h2.2.1, h2.2.2.1, h2.2.2.2⟩

/-- C6: the backup effect is the first thing the run does after the checks —
before any mutation — and carries the serialization of the document as
loaded; parsing that serialization returns exactly the loaded document. -/
theorem backup_roundtrip (env : EnvVars) (argv : List String)
    (config : TraefikConfig) (s ip raw : String) (status : Nat) (text : String)
    (rules : List AccessRule)
    (he : (envMissing env.token || envMissing env.zoneId || envMissing env.domainName) = false)
    (ha : argv.length = 2)
    (hs : normalizeScheme raw = "http" ∨ normalizeScheme raw = "https") :
    (runProgram env argv config s ip raw status text rules).head? =
      some (Effect.writeBackup (dumpYaml (configToYaml config))) ∧
    Effect.writeBackup (dumpYaml (configToYaml config)) ∈
      runProgram env argv config s ip raw status text rules ∧
    pVal (sizeY (configToYaml config)) (dumpYaml (configToYaml config)) =
      some (configToYaml config, []) := by
  rw [runProgram_success env argv config s ip raw status text rules he ha hs]
  exact ⟨rfl, by simp, parse_dump_eq _⟩

/-- Witness for C6 at concrete inputs. -/
theorem backup_roundtrip_witness :
    (runProgram envW argvW cfgW "alpha" "10.0.0.1" "https" 200 "" [ruleOneFactor]).head? =
      some (Effect.writeBackup (dumpYaml (configToYaml cfgW))) ∧
    Effect.writeBackup (dumpYaml (configToYaml cfgW)) ∈
      runProgram envW argvW cfgW "alpha" "10.0.0.1" "https" 200 "" [ruleOneFactor] ∧
    pVal (sizeY (configToYaml cfgW)) (dumpYaml (configToYaml cfgW)) =
      some (configToYaml cfgW, []) :=
  backup_roundtrip envW argvW cfgW "alpha" "10.0.0.1" "https" 200 "" [ruleOneFactor]
    (by decide) (by decide) (Or.inr (by decide))

/-- C8: the new router references service `<service>-svc`, that key is the
one inserted into the services mapping, and `<service>.<domain>` is the
subdomain used in the routing rule, the DNS record, and the access-control
update. -/
theorem templated_names (env : EnvVars) (argv : List String)
    (config : TraefikConfig) (s ip raw : String) (status : Nat) (text : String)
    (rules : List AccessRule)
    (he : (envMissing env.token || envMissing env.zoneId || envMissing env.domainName) = false)
    (ha : argv.length = 2)
    (hs : normalizeScheme raw = "http" ∨ normalizeScheme raw = "https") :
    mapLookup (routerVal s (env.domainName.getD "")) "service" =
      some (Yaml.s (s ++ "-svc")) ∧
    (serviceEntry s (normalizeScheme raw) ip).map Prod.fst = [s ++ "-svc"] ∧
    mapLookup (routerVal s (env.domainName.getD "")) "rule" =
      some (Yaml.s ("Host(`" ++ (s ++ "." ++ env.domainName.getD "") ++ "`)")) ∧
    Effect.dnsPost (s ++ "." ++ env.domainName.getD "") (env.domainName.getD "") ∈
      runProgram env argv config s ip raw status text rules ∧
    Effect.writeAuthelia (updateRules rules (s ++ "." ++ env.domainName.getD "")) ∈
      runProgram env argv config s ip raw status text rules := by
  refine ⟨by simp [mapLookup, routerVal, lookupKey], rfl,
    by simp [mapLookup, routerVal, lookupKey, String.append_assoc], ?_, ?_⟩
  · rw [runProgram_success env argv config s ip raw status text rules he ha hs]
    simp
  · rw [runProgram_success env argv config s ip raw status text rules he ha hs]
    simp

/-- Witness for C8 at concrete inputs. -/
theorem templated_names_witness :
    mapLookup (routerVal "alpha" "example.com") "service" =
      some (Yaml.s ("alpha" ++ "-svc")) ∧
    (serviceEntry "alpha" (normalizeScheme "https") "10.0.0.1").map Prod.fst =
      ["alpha" ++ "-svc"] ∧
    mapLookup (routerVal "alpha" "example.com") "rule" =
      some (Yaml.s ("Host(`" ++ ("alpha" ++ "." ++ "example.com") ++ "`)")) ∧
    Effect.dnsPost ("alpha" ++ "." ++ "example.com") "example.com" ∈
      runProgram envW argvW cfgW "alpha" "10.0.0.1" "https" 200 "" [ruleOneFactor] ∧
    Effect.writeAuthelia (updateRules [ruleOneFactor] ("alpha" ++ "." ++ "example.com")) ∈
      runProgram envW argvW cfgW "alpha" "10.0.0.1" "https" 200 "" [ruleOneFactor] :=
  templated_names envW argvW cfgW "alpha" "10.0.0.1" "https" 200 "" [ruleOneFactor]
    (by decide) (by decide) (Or.inr (by decide))

/-- C9: the synthesized router entry always has entry points `[https]`,
middlewares `[chain-no-auth]` and a present-but-empty `tls` marker, whatever
scheme was chosen; the routers mapping produced by the merge is independent
of the scheme, which only appears in the service entry's backend URL. -/
theorem router_entry_fixed_fields (cfg : TraefikConfig)
    (s dn ip sch1 sch2 : String) :
    mapLookup (routerVal s dn) "entryPoints" = some (Yaml.arr [Yaml.s "https"]) ∧
    mapLookup (routerVal s dn) "middlewares" =
      some (Yaml.arr [Yaml.s "chain-no-auth"]) ∧
    mapLookup (routerVal s dn) "tls" = some (Yaml.map []) ∧
    (applyTraefik cfg s dn sch1 ip).routers = (applyTraefik cfg s dn sch2 ip).routers ∧
    mapLookup (serviceVal sch1 ip) "loadBalancer" =
      some (Yaml.map
        [("servers", Yaml.arr [Yaml.map [("url", Yaml.s (sch1 ++ "://" ++ ip ++ "/"))]]),
         ("passHostHeader", Yaml.b true)]) :=
  ⟨by simp [mapLookup, routerVal, lookupKey],
   by simp [mapLookup, routerVal, lookupKey],
   by simp [mapLookup, routerVal, lookupKey],
   rfl,
   by simp [mapLookup, serviceVal, lookupKey]⟩

end TraefikUpdate
